import Mathlib

/-!
Shallow embedding of `src/jofsarpur/main.py`: the per-task download state
machine (`DownloadWorker`), the shared completion log (`download_log`), the
polling scheduler loop in `main`, the queue builder, and the JSON
persistence of the log.  Machine integers do not occur; identifiers are
strings, counts are naturals, and the external process's exit status is an
integer.
-/

namespace Jofsarpur

/-! ## Download state (class `DownloadState`, main.py lines 68-72) -/

inductive DownloadState where
  | WAITING
  | DOWNLOADING
  | DONE
  | ERROR
deriving DecidableEq, Repr

/-! ## The completion log

`download_log` is a Python `dict` mapping a series id to a list of episode
ids, kept in insertion order.  We embed it as an association list. -/

abbrev DownloadLog := List (String × List String)

/-- The keys of the log, `download_log.keys()`. -/
def logKeys (log : DownloadLog) : List String :=
  log.map Prod.fst

/-- `download_log[sid]`, defaulting to `[]` when the key is absent (every
use in the source is guarded by a key-membership test or by a prior
`download_log[sid] = []` assignment). -/
def logLookup (log : DownloadLog) (sid : String) : List String :=
  (log.lookup sid).getD []

/-- The skip test of main.py line 234:
`sid in download_log.keys() and pid in download_log[sid]`. -/
def logMem (log : DownloadLog) (sid pid : String) : Bool :=
  (logKeys log).contains sid && (logLookup log sid).contains pid

/-- The dict assignment `download_log[sid] = []` (main.py line 135):
replaces the value when the key is present, otherwise appends the key. -/
def logSetEmpty (log : DownloadLog) (sid : String) : DownloadLog :=
  if (logKeys log).contains sid then
    log.map (fun kv => if kv.1 = sid then (kv.1, ([] : List String)) else kv)
  else
    log ++ [(sid, [])]

/-- The in-place `download_log[sid].append(pid)` (main.py lines 136-138). -/
def logAppend (log : DownloadLog) (sid pid : String) : DownloadLog :=
  log.map (fun kv => if kv.1 = sid then (kv.1, kv.2 ++ [pid]) else kv)

/-- The success-path insertion of main.py lines 131-138: create an empty
list for a series first seen, then append the episode id. -/
def logInsert (log : DownloadLog) (sid pid : String) : DownloadLog :=
  logAppend (if (logKeys log).contains sid then log else logSetEmpty log sid) sid pid

/-! ## Filename templates

`download_configuration["filenames"].format(**download_configuration)`
(main.py line 87): `str.format` substitutes named fields and raises
`KeyError` at the first replacement field missing from the keyword
arguments.  A template is a sequence of literal and field parts. -/

inductive TemplatePart where
  | lit (s : String)
  | field (name : String)
deriving DecidableEq, Repr

/-- `str.format(**fields)`: substitute each field from the association
list, failing with the field's name (the `KeyError`) when it is absent. -/
def formatTemplate (parts : List TemplatePart) (fields : List (String × String)) :
    Except String String :=
  match parts with
  | [] => .ok ""
  | .lit s :: rest => (formatTemplate rest fields).map (fun t => s ++ t)
  | .field n :: rest =>
    match fields.lookup n with
    | none => .error n
    | some v => (formatTemplate rest fields).map (fun t => v ++ t)

/-- The source text of a template, the string stored under the
`"filenames"` key of the configuration dict. -/
def templateSource (parts : List TemplatePart) : String :=
  match parts with
  | [] => ""
  | .lit s :: rest => s ++ templateSource rest
  | .field n :: rest => "\x7b" ++ n ++ "\x7d" ++ templateSource rest

/-- `Path(dir, name)` as used on main.py lines 85-88. -/
def pathJoin (dir name : String) : String :=
  dir ++ "/" ++ name

/-! ## Download configuration

The `download_configuration` dict handed to a worker.  `fields` is the
dict itself (keyword arguments of the `format` call); the template and the
download directory are carried structurally alongside, coherent with the
`"filenames"` and `"download_directory"` entries written by the queue
builder. -/

structure DownloadConfiguration where
  fields : List (String × String)
  filenames : List TemplatePart
  download_directory : String
deriving DecidableEq, Repr

/-- `download_configuration["sid"]`. -/
def DownloadConfiguration.sid (cfg : DownloadConfiguration) : String :=
  (cfg.fields.lookup "sid").getD ""

/-- `download_configuration["pid"]`. -/
def DownloadConfiguration.pid (cfg : DownloadConfiguration) : String :=
  (cfg.fields.lookup "pid").getD ""

/-- `download_configuration["url"]`. -/
def DownloadConfiguration.url (cfg : DownloadConfiguration) : String :=
  (cfg.fields.lookup "url").getD ""

/-! ## The worker (class `DownloadWorker`, main.py lines 75-150) -/

structure DownloadWorker where
  download_configuration : DownloadConfiguration
  state : DownloadState
  /-- The `ffmpeg` argument vector; `none` when construction failed before
  it was assigned. -/
  process_args : Option (List String)
deriving DecidableEq, Repr

/-- `DownloadWorker.__init__` (main.py lines 76-113): expand the filename
template; a `KeyError` marks the worker `ERROR` and returns before
`process_args` is assigned, otherwise the worker is `WAITING` with the
`ffmpeg` stream-copy argument vector. -/
def DownloadWorker.init (cfg : DownloadConfiguration) : DownloadWorker :=
  match formatTemplate cfg.filenames cfg.fields with
  | .error _ =>
    { download_configuration := cfg, state := .ERROR, process_args := none }
  | .ok name =>
    { download_configuration := cfg
      state := .WAITING
      process_args := some
        ["ffmpeg", "-hide_banner", "-loglevel", "verbose", "-stats", "-y",
         "-i", cfg.url, "-c", "copy", "-bsf:a", "aac_adtstoasc",
         pathJoin cfg.download_directory name] }

/-- Result of one `DownloadWorker.run` call: the worker after the call,
the shared log after the call, and the number of `Popen` invocations the
call performed. -/
structure RunResult where
  worker : DownloadWorker
  log : DownloadLog
  invocations : Nat
deriving DecidableEq, Repr

/-- The completion half of `DownloadWorker.run` (main.py lines 130-148),
entered once `self.process.poll()` is non-`None` with returncode `rc`: on
exit status `0` the `(sid, pid)` pair is inserted into the shared log and
the worker ends `DONE`; any other status leaves the log untouched and
ends the worker in `ERROR`. -/
def DownloadWorker.finish (w : DownloadWorker) (rc : Int) (log : DownloadLog) :
    DownloadWorker × DownloadLog :=
  if rc = 0 then
    ({ w with state := .DONE },
     logInsert log w.download_configuration.sid w.download_configuration.pid)
  else
    ({ w with state := .ERROR }, log)

/-- `DownloadWorker.run` (main.py lines 115-150), with the external
process's eventual exit status `rc` supplied as a parameter: a worker not
in `WAITING` returns at once without spawning anything; otherwise the
state becomes `DOWNLOADING`, one process is spawned (`Popen`, line 124)
and polled until it exits, and the completion half runs. -/
def DownloadWorker.run (w : DownloadWorker) (rc : Int) (log : DownloadLog) :
    RunResult :=
  if w.state ≠ DownloadState.WAITING then
    { worker := w, log := log, invocations := 0 }
  else
    let res := DownloadWorker.finish { w with state := .DOWNLOADING } rc log
    { worker := res.1, log := res.2, invocations := 1 }

/-! ## The scheduler (the `while True` loop of `main`, main.py lines 273-314)

The loop repeatedly filters the worker list by state, exits when every
worker is `DONE` or when nothing is `WAITING`/`DOWNLOADING` and something
is `ERROR`, and otherwise starts the first
`min(len(waiting_threads), thread_count - len(running_threads))` waiting
workers.  We embed it as a transition system: an `admission` step performs one
admission pass of the loop body, and a `complete` step lets one
`DOWNLOADING` worker finish with some exit status (worker threads run
concurrently with the loop, so completions interleave with admission
passes).  Starting a thread is modelled as atomically entering
`DOWNLOADING`, the first action of `DownloadWorker.run`. -/

/-- `len([w for w in workers if w.state == s])` — the length of the
state-filtered lists built on main.py lines 274-297. -/
def countState (ws : List DownloadWorker) (s : DownloadState) : Nat :=
  (ws.filter (fun w => w.state == s)).length

/-- Start (move to `DOWNLOADING`) the first `n` `WAITING` workers of the
list, in list order — `waiting_threads[i].start()` for `i in range(0, n)`
(main.py lines 309-312), `waiting_threads` being the filtered sublist. -/
def startFirstWaiting : Nat → List DownloadWorker → List DownloadWorker
  | _, [] => []
  | 0, ws => ws
  | n + 1, w :: ws =>
    if w.state == DownloadState.WAITING then
      { w with state := .DOWNLOADING } :: startFirstWaiting n ws
    else
      w :: startFirstWaiting (n + 1) ws

/-- One admission pass of the loop body (main.py lines 308-312): start
`min(len(waiting_threads), thread_count - len(running_threads))` waiting
workers (Python's `range` over a non-positive bound is empty, matching
truncated subtraction on `Nat`). -/
def admitWaiting (tc : Nat) (ws : List DownloadWorker) : List DownloadWorker :=
  startFirstWaiting
    (min (countState ws .WAITING) (tc - countState ws .DOWNLOADING)) ws

/-- The loop's exit condition (main.py lines 299-306): all workers `DONE`,
or nothing `WAITING` or `DOWNLOADING` while at least one worker is in
`ERROR`. -/
def breakCond (ws : List DownloadWorker) : Bool :=
  (countState ws .DONE == ws.length) ||
  ((countState ws .WAITING + countState ws .DOWNLOADING == 0) &&
   (countState ws .ERROR != 0))

/-- The scheduler's state: the worker list built on main.py lines 269-272
and the shared `download_log`. -/
structure SchedState where
  workers : List DownloadWorker
  log : DownloadLog

/-- The state at the start of the loop: one worker per queue item
(main.py lines 269-272), sharing the loaded log. -/
def initState (log : DownloadLog) (queue : List DownloadConfiguration) :
    SchedState :=
  { workers := queue.map DownloadWorker.init, log := log }

/-- One observable transition of the run: an admission pass by the main
loop, or the completion of one currently `DOWNLOADING` worker with exit
status `rc`. -/
inductive SchedStep (tc : Nat) : SchedState → SchedState → Prop where
  | admission (s : SchedState) :
      SchedStep tc s { workers := admitWaiting tc s.workers, log := s.log }
  | complete (s : SchedState) (i : Nat) (rc : Int) (h : i < s.workers.length)
      (hdl : (s.workers.get ⟨i, h⟩).state = DownloadState.DOWNLOADING) :
      SchedStep tc s
        { workers := s.workers.set i
            ((s.workers.get ⟨i, h⟩).finish rc s.log).1
          log := ((s.workers.get ⟨i, h⟩).finish rc s.log).2 }

/-- States observable during a run started from `s₀`. -/
def Reachable (tc : Nat) (s₀ s : SchedState) : Prop :=
  Relation.ReflTransGen (SchedStep tc) s₀ s

/-! ## The queue builder (main.py lines 201-263)

For each configured series the fetched metadata is walked episode by
episode: a `(sid, pid)` pair already in the log is skipped (log message
only), otherwise a `download_configuration` dict is built and appended to
`download_queue`. -/

/-- `parse_file_string` (main.py lines 58-65): the identity since the
2022-08-23 change. -/
def parse_file_string (file_string : String) : String :=
  file_string

/-- Python's `\s` on the ASCII range (space, tab, newline, return,
vertical tab, form feed). -/
def isPySpace (c : Char) : Bool :=
  c = ' ' || c = '\t' || c = '\n' || c = '\r' || c = '\x0b' || c = '\x0c'

/-- The `[0-9]` character class. -/
def isDigit09 (c : Char) : Bool :=
  '0' ≤ c && c ≤ '9'

/-- `int()` of a non-empty digit string. -/
def digitsToNat (ds : List Char) : Nat :=
  ds.foldl (fun acc c => 10 * acc + (c.toNat - '0'.toNat)) 0

/-- `re.match(r"\S+\s([0-9]+) af ([0-9]+)", title)` (main.py lines
212-214), returning the two groups.  Backtracking cannot help this
pattern: shortening the greedy `\S+` puts a non-space where `\s` must
match, and shortening either greedy `[0-9]+` puts a digit where a space
must match, so the maximal-munch reading below is the regex's semantics. -/
def matchEpisodeOfCount (title : List Char) : Option (Nat × Nat) :=
  let nonspace := title.takeWhile (fun c => !isPySpace c)
  if nonspace.isEmpty then none
  else
    match title.drop nonspace.length with
    | [] => none
    | w :: rest =>
      if !isPySpace w then none
      else
        let d1 := rest.takeWhile isDigit09
        if d1.isEmpty then none
        else
          match rest.drop d1.length with
          | ' ' :: 'a' :: 'f' :: ' ' :: rest2 =>
            let d2 := rest2.takeWhile isDigit09
            if d2.isEmpty then none
            else some (digitsToNat d1, digitsToNat d2)
          | _ => none

/-- Whether `p` begins the character list `cs`. -/
def listStartsWith : List Char → List Char → Bool
  | [], _ => true
  | _ :: _, [] => false
  | p :: ps, c :: cs => p == c && listStartsWith ps cs

/-- Backtracking for `re.match(r"([0-9]+). kafli", title)` (main.py lines
223-225): the greedy `[0-9]+` tries `k` digits, the unescaped `.` eats one
arbitrary character, and `" kafli"` must follow; on failure the digit
group gives one character back. -/
def matchKafliAt (title : List Char) : Nat → Option Nat
  | 0 => none
  | k + 1 =>
    match title.drop (k + 1) with
    | _ :: rest =>
      if listStartsWith " kafli".toList rest then
        some (digitsToNat (title.take (k + 1)))
      else matchKafliAt title k
    | [] => matchKafliAt title k

/-- `re.match(r"([0-9]+). kafli", title)`, returning the group. -/
def matchKafli (title : List Char) : Option Nat :=
  matchKafliAt title (title.takeWhile isDigit09).length

/-- The `episode_item` fields produced by the nested `try`/`except`
blocks of main.py lines 210-232 (dict values are stringified; only the
keys and the identifier values feed any later control flow). -/
def episodeNumberFields (title : String) : List (String × String) :=
  match matchEpisodeOfCount title.toList with
  | some nm =>
    [("episode_number", toString nm.1), ("episode_count", toString nm.2)]
  | none =>
    match matchKafli title.toList with
    | some n => [("episode_number", toString n)]
    | none => []

/-- One fetched episode: `{"id", "title", "firstrun"}` from
`get_series_data` plus the `"file"` string from `get_file_data`. -/
structure Episode where
  id : String
  title : String
  firstrun : String
  file : String
deriving DecidableEq, Repr

/-- One `[sid]` table of the configuration file: an optional `title`
override and the `filenames` template. -/
structure SeriesConfig where
  title : Option String
  filenames : List TemplatePart
deriving DecidableEq, Repr

/-- One series as seen by the builder loop: its configuration key, its
configuration table, and the fetched metadata. -/
structure SeriesData where
  sid : String
  config : SeriesConfig
  title : String
  episodes : List Episode
deriving DecidableEq, Repr

/-- The `[global]` table: `download_directory`. -/
structure GlobalConfig where
  download_directory : String
deriving DecidableEq, Repr

/-- The `episode_item` dict as completed by main.py lines 243-258 (the
`airdate` value is a parsed datetime in the source; the model carries the
source string, since only the key's presence feeds later control flow). -/
def buildEpisodeItem (glob : GlobalConfig) (sd : SeriesData) (ep : Episode) :
    DownloadConfiguration :=
  { fields := episodeNumberFields ep.title ++
      [("url", parse_file_string ep.file),
       ("title", sd.config.title.getD sd.title),
       ("episode_title", ep.title),
       ("sid", sd.sid),
       ("pid", ep.id),
       ("airdate", ep.firstrun),
       ("filenames", templateSource sd.config.filenames),
       ("download_directory", glob.download_directory)]
    filenames := sd.config.filenames
    download_directory := glob.download_directory }

/-- The inner episode loop (main.py lines 209-262): skip an episode whose
`(sid, pid)` is in the log, otherwise append its `episode_item`. -/
def buildSeriesTasks (glob : GlobalConfig) (log : DownloadLog)
    (sd : SeriesData) : List Episode → List DownloadConfiguration
  | [] => []
  | ep :: rest =>
    if logMem log sd.sid ep.id then
      buildSeriesTasks glob log sd rest
    else
      buildEpisodeItem glob sd ep :: buildSeriesTasks glob log sd rest

/-- The outer series loop (main.py lines 201-263) building
`download_queue`. -/
def buildQueue (glob : GlobalConfig) (log : DownloadLog) :
    List SeriesData → List DownloadConfiguration
  | [] => []
  | sd :: rest => buildSeriesTasks glob log sd sd.episodes ++ buildQueue glob log rest

/-! ## Persistence of the log (main.py lines 183-186 and 315) -/

/-- A JSON document, the value space of `json.load`/`json.dump`. -/
inductive Json where
  | null
  | bool (b : Bool)
  | num (n : Int)
  | str (s : String)
  | arr (elems : List Json)
  | obj (members : List (String × Json))

/-- `json.dump(download_log, ...)` (main.py line 315): the log serializes
as an object mapping each series id to an array of episode-id strings. -/
def dumpLog (log : DownloadLog) : Json :=
  .obj (log.map (fun kv => (kv.1, Json.arr (kv.2.map Json.str))))

/-- The strings of a JSON array (the shape `json.dump` produced). -/
def jsonStrings (j : Json) : List String :=
  match j with
  | .arr elems =>
    elems.filterMap (fun e =>
      match e with
      | Json.str s => some s
      | _ => none)
  | _ => []

/-- `json.load` of a document in the log's shape. -/
def loadLogJson (j : Json) : DownloadLog :=
  match j with
  | .obj members => members.map (fun kv => (kv.1, jsonStrings kv.2))
  | _ => []

/-- main.py lines 183-186: load the log file, a missing file
(`FileNotFoundError`) yielding the empty dict. -/
def loadDownloadLog (file : Option Json) : DownloadLog :=
  match file with
  | none => []
  | some j => loadLogJson j

/-! ## Dry-run -/

/-- Modelled from the spec: the operator-facing dry-run flag (spec §6) is
absent from `src/jofsarpur/main.py` (the CLI declares only `--config`,
`--log` and `--threads`).  Per the spec, a set flag marks the task
immediately `Done` without spawning a process, touching the filesystem,
or adding a log entry; an unset flag leaves `DownloadWorker.run`
unchanged. -/
def DownloadWorker.runWithDryRun (w : DownloadWorker) (dryRun : Bool)
    (rc : Int) (log : DownloadLog) : RunResult :=
  if dryRun then
    { worker := { w with state := .DONE }, log := log, invocations := 0 }
  else
    w.run rc log

/-! ## Fine-grained interleaving of the success-path insertion

The success path of `DownloadWorker.run` (main.py lines 130-138) mutates
the shared `download_log` dict from the worker's own thread with no lock:
the key-membership test, the `download_log[sid] = []` assignment and the
`append` are separate statements, between any two of which the
interpreter may switch threads.  Each is modelled as one atomic
micro-step of a thread program. -/

/-- One worker thread inside the success path: its task key and its
program counter (0: before the key test, 1: before `download_log[sid] = []`,
2: before the `append`, 3: finished; the test jumps straight to 2 when the
key is present). -/
structure RaceThread where
  sid : String
  pid : String
  pc : Nat
deriving DecidableEq, Repr

/-- One atomic micro-step of a thread in the success path. -/
def raceStep (t : RaceThread) (log : DownloadLog) : RaceThread × DownloadLog :=
  match t.pc with
  | 0 =>
    if (logKeys log).contains t.sid then ({ t with pc := 2 }, log)
    else ({ t with pc := 1 }, log)
  | 1 => ({ t with pc := 2 }, logSetEmpty log t.sid)
  | 2 => ({ t with pc := 3 }, logAppend log t.sid t.pid)
  | _ => (t, log)

/-- Run two success-path threads under a schedule (`true` steps the
first thread, `false` the second). -/
def raceExec : List Bool → RaceThread → RaceThread → DownloadLog →
    RaceThread × RaceThread × DownloadLog
  | [], t1, t2, log => (t1, t2, log)
  | b :: rest, t1, t2, log =>
    if b then
      let s := raceStep t1 log
      raceExec rest s.1 t2 s.2
    else
      let s := raceStep t2 log
      raceExec rest t1 s.1 s.2

/-! ## Sample values used to instantiate theorems on concrete inputs -/

/-- A well-formed `download_configuration`, as the queue builder produces
for one episode with a literal filename template. -/
def sampleConfiguration : DownloadConfiguration :=
  { fields := [("url", "http://u/s1/p1"), ("title", "T"),
      ("episode_title", "E 1 af 2"), ("sid", "s1"), ("pid", "p1"),
      ("airdate", "2022-01-01 00:00:00"), ("filenames", "T.mp4"),
      ("download_directory", "/dl")]
    filenames := [TemplatePart.lit "T.mp4"]
    download_directory := "/dl" }

/-- A `download_configuration` whose filename template references the
`episode_number` field while the dict lacks it (the episode title matched
neither regex). -/
def sampleBadConfiguration : DownloadConfiguration :=
  { fields := [("url", "http://u/s2/p2"), ("title", "T"),
      ("episode_title", "E"), ("sid", "s2"), ("pid", "p2"),
      ("airdate", "2022-01-01 00:00:00"),
      ("filenames", templateSource [TemplatePart.field "episode_number"]),
      ("download_directory", "/dl")]
    filenames := [TemplatePart.field "episode_number"]
    download_directory := "/dl" }

/-- The `[global]` table of the sample configuration. -/
def sampleGlobal : GlobalConfig :=
  { download_directory := "/dl" }

/-- A fetched episode whose key is already in `sampleLog`. -/
def sampleEpisode1 : Episode :=
  { id := "p1", title := "Thattur 1 af 2", firstrun := "2022-01-01 19:00:00",
    file := "http://u/s1/p1.m3u8" }

/-- A fetched episode whose key is not in `sampleLog`. -/
def sampleEpisode2 : Episode :=
  { id := "p2", title := "Thattur 2 af 2", firstrun := "2022-01-08 19:00:00",
    file := "http://u/s1/p2.m3u8" }

/-- One configured series with the two sample episodes fetched. -/
def sampleSeries : SeriesData :=
  { sid := "s1", config := { title := none, filenames := [TemplatePart.field "title"] },
    title := "T", episodes := [sampleEpisode1, sampleEpisode2] }

/-- A loaded log that already contains `("s1", "p1")`. -/
def sampleLog : DownloadLog :=
  [("s1", ["p1"])]

/-- The worker built from `sampleConfiguration` (ends construction
`WAITING`). -/
def sampleWorker : DownloadWorker :=
  DownloadWorker.init sampleConfiguration

/-- The worker built from `sampleBadConfiguration` (ends construction
`ERROR`). -/
def sampleErrorWorker : DownloadWorker :=
  DownloadWorker.init sampleBadConfiguration

/-! ## Counting lemmas for the scheduler -/

lemma countState_cons (w : DownloadWorker) (ws : List DownloadWorker)
    (s : DownloadState) :
    countState (w :: ws) s = (if w.state = s then 1 else 0) + countState ws s := by
  by_cases h : w.state = s
  · simp [countState, List.filter_cons, h, Nat.add_comm]
  · simp [countState, List.filter_cons, h]

lemma countState_total (ws : List DownloadWorker) :
    countState ws .WAITING + countState ws .DOWNLOADING + countState ws .DONE +
      countState ws .ERROR = ws.length := by
  induction ws with
  | nil => simp [countState]
  | cons w tl ih =>
    rcases w with ⟨cfg, st, args⟩
    cases st <;> simp [countState_cons] <;> omega

lemma countState_startFirstWaiting (ws : List DownloadWorker) :
    ∀ n : Nat, n ≤ countState ws .WAITING →
      countState (startFirstWaiting n ws) .DOWNLOADING
        = countState ws .DOWNLOADING + n := by
  induction ws with
  | nil =>
    intro n h
    simp [countState] at h
    simp [startFirstWaiting, countState, h]
  | cons w tl ih =>
    intro n h
    cases n with
    | zero => simp [startFirstWaiting]
    | succ n =>
      by_cases hw : w.state = DownloadState.WAITING
      · have h' : n ≤ countState tl .WAITING := by
          simp [countState_cons, hw] at h
          omega
        simp [startFirstWaiting, hw, countState_cons, ih n h']
        omega
      · have h' : n + 1 ≤ countState tl .WAITING := by
          simp [countState_cons, hw] at h
          omega
        simp [startFirstWaiting, hw, countState_cons, ih (n + 1) h']
        omega

lemma countState_set_le (ws : List DownloadWorker) (w' : DownloadWorker)
    (s : DownloadState) (hw' : ¬ w'.state = s) :
    ∀ i : Nat, countState (ws.set i w') s ≤ countState ws s := by
  induction ws with
  | nil => intro i; simp [countState]
  | cons w tl ih =>
    intro i
    cases i with
    | zero =>
      by_cases h : w.state = s <;> simp [countState_cons, hw', h]
    | succ i =>
      simp only [List.set_cons_succ, countState_cons]
      exact Nat.add_le_add_left (ih i) _

lemma finish_state_not_downloading (w : DownloadWorker) (rc : Int)
    (log : DownloadLog) :
    ¬ ((w.finish rc log).1.state = DownloadState.DOWNLOADING) := by
  unfold DownloadWorker.finish
  split <;> simp

lemma countState_init_downloading (queue : List DownloadConfiguration) :
    countState (queue.map DownloadWorker.init) .DOWNLOADING = 0 := by
  induction queue with
  | nil => simp [countState]
  | cons cfg tl ih =>
    have hne : (DownloadWorker.init cfg).state ≠ DownloadState.DOWNLOADING := by
      unfold DownloadWorker.init
      split <;> simp
    simp [countState_cons, hne, ih]

lemma schedStep_downloading_le (tc : Nat) {a b : SchedState}
    (hstep : SchedStep tc a b)
    (hle : countState a.workers DownloadState.DOWNLOADING ≤ tc) :
    countState b.workers DownloadState.DOWNLOADING ≤ tc := by
  cases hstep with
  | admission =>
    show countState (admitWaiting tc a.workers) DownloadState.DOWNLOADING ≤ tc
    unfold admitWaiting
    rw [countState_startFirstWaiting a.workers _ (Nat.min_le_left _ _)]
    omega
  | complete i rc h hdl =>
    exact le_trans
      (countState_set_le a.workers _ _ (finish_state_not_downloading _ _ _) i) hle

/-- C1: for every run of the scheduler (every state reachable from the
freshly built worker list) with a positive `thread_count`, the number of
workers in the `DOWNLOADING` state never exceeds `thread_count`. -/
theorem downloading_never_exceeds_thread_count
    (tc : Nat) (log0 : DownloadLog) (queue : List DownloadConfiguration)
    (s : SchedState) (hpos : 0 < tc)
    (hreach : Reachable tc (initState log0 queue) s) :
    countState s.workers DownloadState.DOWNLOADING ≤ tc := by
  induction hreach with
  | refl => simp [initState, countState_init_downloading]
  | tail _ hstep ih => exact schedStep_downloading_le _ hstep ih

/-- Witness for C1: the hypotheses hold at a concrete run start. -/
theorem downloading_never_exceeds_thread_count_witness :
    0 < 2 ∧
      countState
        (initState [] [⟨[("sid", "s1"), ("pid", "p1")], [TemplatePart.lit "f"], "/d"⟩]).workers
        DownloadState.DOWNLOADING ≤ 2 :=
  ⟨by decide,
   downloading_never_exceeds_thread_count 2 [] _ _ (by decide)
     Relation.ReflTransGen.refl⟩

/-! ## Lemmas about the completion log -/

lemma contains_iff_mem (l : List String) (a : String) :
    l.contains a = true ↔ a ∈ l := by
  simp [List.contains, List.elem_iff]

lemma contains_eq_false_iff (l : List String) (a : String) :
    l.contains a = false ↔ a ∉ l := by
  simp [List.contains, List.elem_eq_mem]

lemma logKeys_nil : logKeys [] = [] :=
  rfl

lemma logKeys_cons (k : String) (v : List String) (tl : DownloadLog) :
    logKeys ((k, v) :: tl) = k :: logKeys tl :=
  rfl

lemma logKeys_append (l₁ l₂ : DownloadLog) :
    logKeys (l₁ ++ l₂) = logKeys l₁ ++ logKeys l₂ := by
  simp [logKeys]

lemma logKeys_logAppend (log : DownloadLog) (sid pid : String) :
    logKeys (logAppend log sid pid) = logKeys log := by
  unfold logKeys logAppend
  rw [List.map_map]
  apply List.map_congr_left
  intro kv _
  by_cases h : kv.1 = sid <;> simp [h]

lemma mem_keys_exists_lookup (log : DownloadLog) (s : String)
    (h : s ∈ logKeys log) :
    ∃ v, log.lookup s = some v := by
  induction log with
  | nil => simp [logKeys] at h
  | cons kv tl ih =>
    rcases kv with ⟨k, v⟩
    by_cases hk : s = k
    · exact ⟨v, by simp [List.lookup_cons, hk]⟩
    · have hs : s ∈ logKeys tl := by simpa [logKeys, hk] using h
      obtain ⟨v', hv'⟩ := ih hs
      exact ⟨v', by simp [List.lookup_cons, beq_false_of_ne hk, hv']⟩

lemma not_mem_keys_lookup_none (log : DownloadLog) (s : String)
    (h : s ∉ logKeys log) :
    log.lookup s = none := by
  induction log with
  | nil => rfl
  | cons kv tl ih =>
    rcases kv with ⟨k, v⟩
    rw [logKeys_cons] at h
    have h1 : s ≠ k := fun he => h (by simp [he])
    have h2 : s ∉ logKeys tl := fun hm => h (by simp [hm])
    simp only [List.lookup_cons, beq_false_of_ne h1]
    exact ih h2

lemma lookup_logAppend_ne (log : DownloadLog) (sid pid q : String)
    (hq : q ≠ sid) :
    (logAppend log sid pid).lookup q = log.lookup q := by
  induction log with
  | nil => rfl
  | cons kv tl ih =>
    rcases kv with ⟨k, v⟩
    by_cases h : k = sid
    · subst h
      simpa [logAppend, List.lookup_cons, beq_false_of_ne hq] using ih
    · by_cases hqk : q = k
      · simp [logAppend, h, List.lookup_cons, hqk]
      · simpa [logAppend, h, List.lookup_cons, beq_false_of_ne hqk] using ih

lemma lookup_logAppend_self (log : DownloadLog) (sid pid : String)
    (v : List String) (hv : log.lookup sid = some v) :
    (logAppend log sid pid).lookup sid = some (v ++ [pid]) := by
  induction log with
  | nil => simp [List.lookup] at hv
  | cons kv tl ih =>
    rcases kv with ⟨k, v'⟩
    by_cases h : k = sid
    · subst h
      simp [List.lookup_cons] at hv
      simp [logAppend, List.lookup_cons, hv]
    · have hks : (sid == k) = false := beq_false_of_ne (fun he => h he.symm)
      simp [List.lookup_cons, hks] at hv
      simp [logAppend, h, List.lookup_cons, hks]
      exact ih hv

lemma lookup_append_of_not_mem (l₁ l₂ : DownloadLog) (q : String)
    (h : q ∉ logKeys l₁) :
    (l₁ ++ l₂).lookup q = l₂.lookup q := by
  induction l₁ with
  | nil => rfl
  | cons kv tl ih =>
    rcases kv with ⟨k, v⟩
    rw [logKeys_cons] at h
    have h1 : q ≠ k := fun he => h (by simp [he])
    have h2 : q ∉ logKeys tl := fun hm => h (by simp [hm])
    simp [List.lookup_cons, beq_false_of_ne h1]
    exact ih h2

lemma lookup_append_of_mem (l₁ l₂ : DownloadLog) (q : String) (v : List String)
    (h : l₁.lookup q = some v) :
    (l₁ ++ l₂).lookup q = some v := by
  induction l₁ with
  | nil => simp [List.lookup] at h
  | cons kv tl ih =>
    rcases kv with ⟨k, v'⟩
    cases hqk : (q == k) with
    | true => simpa [List.lookup_cons, hqk] using h
    | false =>
      simp [List.lookup_cons, hqk] at h ⊢
      exact ih h

lemma logSetEmpty_of_not_mem (log : DownloadLog) (sid : String)
    (h : sid ∉ logKeys log) :
    logSetEmpty log sid = log ++ [(sid, [])] := by
  unfold logSetEmpty
  rw [if_neg (fun hx => h ((contains_iff_mem _ _).1 hx))]

lemma logMem_iff (log : DownloadLog) (s p : String) :
    logMem log s p = true ↔ s ∈ logKeys log ∧ p ∈ logLookup log s := by
  simp [logMem, Bool.and_eq_true, contains_iff_mem]

lemma logMem_logInsert_iff (log : DownloadLog) (sid pid s p : String) :
    logMem (logInsert log sid pid) s p = true ↔
      (logMem log s p = true ∨ (s = sid ∧ p = pid)) := by
  by_cases hc : sid ∈ logKeys log
  · have hcb : (logKeys log).contains sid = true := (contains_iff_mem _ _).2 hc
    obtain ⟨v, hv⟩ := mem_keys_exists_lookup log sid hc
    have hite : logInsert log sid pid = logAppend log sid pid := by
      unfold logInsert
      rw [if_pos hcb]
    rw [hite, logMem_iff, logMem_iff, logKeys_logAppend]
    by_cases hs : s = sid
    · subst hs
      rw [show logLookup (logAppend log s pid) s = logLookup log s ++ [pid] by
            simp [logLookup, lookup_logAppend_self log s pid v hv, hv]]
      simp [hc, List.mem_append]
    · rw [show logLookup (logAppend log sid pid) s = logLookup log s by
            simp [logLookup, lookup_logAppend_ne log sid pid s hs]]
      simp [hs]
  · have hite : logInsert log sid pid = logAppend (log ++ [(sid, [])]) sid pid := by
      unfold logInsert
      rw [if_neg (fun hx => hc ((contains_iff_mem _ _).1 hx)),
        logSetEmpty_of_not_mem log sid hc]
    rw [hite, logMem_iff, logMem_iff, logKeys_logAppend, logKeys_append,
      logKeys_cons]
    by_cases hs : s = sid
    · subst hs
      have hl' : (log ++ [(s, [])]).lookup s = some [] := by
        rw [lookup_append_of_not_mem log _ s hc]
        simp [List.lookup_cons]
      rw [show logLookup (logAppend (log ++ [(s, [])]) s pid) s = [pid] by
            simp [logLookup, lookup_logAppend_self _ s pid [] hl']]
      simp [hc, List.mem_append]
    · by_cases hsk : s ∈ logKeys log
      · obtain ⟨v', hv'⟩ := mem_keys_exists_lookup log s hsk
        rw [show logLookup (logAppend (log ++ [(sid, [])]) sid pid) s
              = logLookup log s by
              simp [logLookup, lookup_logAppend_ne _ sid pid s hs,
                lookup_append_of_mem log _ s v' hv', hv']]
        simp [hs, hsk, List.mem_append, logKeys_nil]
      · simp [hs, hsk, List.mem_append, logKeys_nil]

lemma logMem_logInsert_mono (log : DownloadLog) (sid pid s p : String)
    (h : logMem log s p = true) :
    logMem (logInsert log sid pid) s p = true :=
  (logMem_logInsert_iff log sid pid s p).2 (Or.inl h)

lemma logKeys_logInsert (log : DownloadLog) (sid pid : String) :
    logKeys (logInsert log sid pid) =
      if sid ∈ logKeys log then logKeys log else logKeys log ++ [sid] := by
  by_cases hc : sid ∈ logKeys log
  · rw [if_pos hc]
    unfold logInsert
    rw [if_pos ((contains_iff_mem _ _).2 hc), logKeys_logAppend]
  · rw [if_neg hc]
    unfold logInsert
    rw [if_neg (fun hx => hc ((contains_iff_mem _ _).1 hx)),
      logSetEmpty_of_not_mem log sid hc, logKeys_logAppend, logKeys_append,
      logKeys_cons, logKeys_nil]

lemma logLookup_logInsert_self (log : DownloadLog) (sid pid : String) :
    logLookup (logInsert log sid pid) sid = logLookup log sid ++ [pid] := by
  by_cases hc : sid ∈ logKeys log
  · obtain ⟨v, hv⟩ := mem_keys_exists_lookup log sid hc
    unfold logInsert
    rw [if_pos ((contains_iff_mem _ _).2 hc)]
    simp [logLookup, lookup_logAppend_self log sid pid v hv, hv]
  · have hln := not_mem_keys_lookup_none log sid hc
    unfold logInsert
    rw [if_neg (fun hx => hc ((contains_iff_mem _ _).1 hx)),
      logSetEmpty_of_not_mem log sid hc]
    have hl' : (log ++ [(sid, [])]).lookup sid = some [] := by
      rw [lookup_append_of_not_mem log _ sid hc]
      simp [List.lookup_cons]
    simp [logLookup, lookup_logAppend_self _ sid pid [] hl', hln]

lemma logLookup_logInsert_ne (log : DownloadLog) (sid pid s : String)
    (hs : s ≠ sid) :
    logLookup (logInsert log sid pid) s = logLookup log s := by
  by_cases hc : sid ∈ logKeys log
  · unfold logInsert
    rw [if_pos ((contains_iff_mem _ _).2 hc)]
    simp [logLookup, lookup_logAppend_ne log sid pid s hs]
  · unfold logInsert
    rw [if_neg (fun hx => hc ((contains_iff_mem _ _).1 hx)),
      logSetEmpty_of_not_mem log sid hc]
    by_cases hsk : s ∈ logKeys log
    · obtain ⟨v, hv⟩ := mem_keys_exists_lookup log s hsk
      simp [logLookup, lookup_logAppend_ne _ sid pid s hs,
        lookup_append_of_mem log _ s v hv, hv]
    · have h1 := not_mem_keys_lookup_none log s hsk
      simp [logLookup, lookup_logAppend_ne _ sid pid s hs,
        lookup_append_of_not_mem log _ s hsk, List.lookup_cons,
        beq_false_of_ne hs, h1]

/-- C2: for a worker started from `WAITING`, an entry for the task's
`(sid, pid)` key is added to the shared log exactly when the external
process exits with status `0` (and membership grows by exactly that key);
a non-zero status leaves the log unchanged; and no run ever removes an
entry. -/
theorem download_log_entry_iff_exit_zero (w : DownloadWorker) (rc : Int)
    (log : DownloadLog) (hw : w.state = DownloadState.WAITING) :
    ((w.run rc log).log =
      if rc = 0 then
        logInsert log w.download_configuration.sid w.download_configuration.pid
      else log)
    ∧ (rc = 0 → ∀ s p, logMem (w.run rc log).log s p = true ↔
        (logMem log s p = true ∨
          (s = w.download_configuration.sid ∧ p = w.download_configuration.pid)))
    ∧ (rc ≠ 0 → (w.run rc log).log = log)
    ∧ (∀ s p, logMem log s p = true → logMem (w.run rc log).log s p = true) := by
  have hrun : (w.run rc log).log =
      if rc = 0 then
        logInsert log w.download_configuration.sid w.download_configuration.pid
      else log := by
    simp only [DownloadWorker.run, DownloadWorker.finish, hw]
    split
    next h => exact absurd rfl h
    next h => split <;> rfl
  refine ⟨hrun, ?_, ?_, ?_⟩
  · intro h0 s p
    rw [hrun, if_pos h0]
    exact logMem_logInsert_iff log _ _ s p
  · intro hne
    rw [hrun, if_neg hne]
  · intro s p hmem
    rw [hrun]
    split
    · exact logMem_logInsert_mono _ _ _ _ _ hmem
    · exact hmem

/-- Witness for C2: the hypothesis holds at a concrete worker, and the
success path inserts the worker's key. -/
theorem download_log_entry_iff_exit_zero_witness :
    sampleWorker.state = DownloadState.WAITING ∧
      (sampleWorker.run 0 []).log =
        (if (0 : Int) = 0 then
          logInsert [] sampleWorker.download_configuration.sid
            sampleWorker.download_configuration.pid
        else []) :=
  ⟨by decide, (download_log_entry_iff_exit_zero sampleWorker 0 [] (by decide)).1⟩

/-- C3: the scheduler loop exits exactly when no worker is `WAITING` and
none is `DOWNLOADING` (every worker is `DONE` or `ERROR`); the admission
pass starts `min(waiting, thread_count - running)` workers, a count
independent of how many workers are in `ERROR`; hence while a waiting
worker remains and a slot is free the loop does not exit and admission
strictly proceeds, however many siblings have failed. -/
theorem loop_exit_and_admission (tc : Nat) (ws : List DownloadWorker) :
    (breakCond ws = true ↔
      countState ws .WAITING = 0 ∧ countState ws .DOWNLOADING = 0)
    ∧ countState (admitWaiting tc ws) .DOWNLOADING =
        countState ws .DOWNLOADING +
          min (countState ws .WAITING) (tc - countState ws .DOWNLOADING)
    ∧ (0 < countState ws .WAITING → countState ws .DOWNLOADING < tc →
        breakCond ws = false ∧
          countState ws .DOWNLOADING <
            countState (admitWaiting tc ws) .DOWNLOADING) := by
  have htot := countState_total ws
  have hadm : countState (admitWaiting tc ws) .DOWNLOADING =
      countState ws .DOWNLOADING +
        min (countState ws .WAITING) (tc - countState ws .DOWNLOADING) := by
    unfold admitWaiting
    exact countState_startFirstWaiting ws _ (Nat.min_le_left _ _)
  have hiff : breakCond ws = true ↔
      countState ws .WAITING = 0 ∧ countState ws .DOWNLOADING = 0 := by
    unfold breakCond
    simp only [Bool.or_eq_true, Bool.and_eq_true, beq_iff_eq, bne_iff_ne,
      Ne, Nat.add_eq_zero]
    omega
  refine ⟨hiff, hadm, fun h1 h2 => ⟨?_, ?_⟩⟩
  · cases hbc : breakCond ws
    · rfl
    · have := hiff.1 hbc
      omega
  · rw [hadm]
    omega

/-- Witness for C3: with one `WAITING` and one `ERROR` worker and two
slots, the loop does not exit and admission strictly proceeds. -/
theorem loop_exit_and_admission_witness :
    0 < countState [sampleWorker, sampleErrorWorker] DownloadState.WAITING ∧
      countState [sampleWorker, sampleErrorWorker] DownloadState.DOWNLOADING < 2 ∧
      (breakCond [sampleWorker, sampleErrorWorker] = false ∧
        countState [sampleWorker, sampleErrorWorker] DownloadState.DOWNLOADING <
          countState (admitWaiting 2 [sampleWorker, sampleErrorWorker])
            DownloadState.DOWNLOADING) :=
  ⟨by decide, by decide,
    (loop_exit_and_admission 2 [sampleWorker, sampleErrorWorker]).2.2
      (by decide) (by decide)⟩

/-- C10: the log stays a mapping from series ids to episode-id lists
under insertion: after `logInsert` the series key is present, its list is
the old list (empty when the series was new) with the episode id
appended, every other key's entry and presence are untouched, and key
uniqueness (a `dict` invariant) is preserved — so the insertion never
fails and the builder's membership test stays well-defined. -/
theorem log_insert_preserves_shape (log : DownloadLog) (sid pid : String) :
    (logKeys (logInsert log sid pid)).contains sid = true
    ∧ logLookup (logInsert log sid pid) sid = logLookup log sid ++ [pid]
    ∧ (∀ s, s ≠ sid → logLookup (logInsert log sid pid) s = logLookup log s)
    ∧ (∀ s, s ≠ sid →
        (logKeys (logInsert log sid pid)).contains s = (logKeys log).contains s)
    ∧ ((logKeys log).Nodup → (logKeys (logInsert log sid pid)).Nodup) := by
  refine ⟨?_, logLookup_logInsert_self log sid pid,
    fun s hs => logLookup_logInsert_ne log sid pid s hs,
    fun s hs => ?_, fun hnd => ?_⟩
  · rw [logKeys_logInsert]
    by_cases hc : sid ∈ logKeys log
    · rw [if_pos hc]
      exact (contains_iff_mem _ _).2 hc
    · rw [if_neg hc]
      exact (contains_iff_mem _ _).2 (by simp [List.mem_append])
  · rw [logKeys_logInsert]
    by_cases hc : sid ∈ logKeys log
    · rw [if_pos hc]
    · rw [if_neg hc]
      cases hcs : (logKeys log).contains s
      · exact (contains_eq_false_iff _ _).2 (by
          simp [List.mem_append, hs, (contains_eq_false_iff _ _).1 hcs])
      · exact (contains_iff_mem _ _).2
          (List.mem_append.2 (Or.inl ((contains_iff_mem _ _).1 hcs)))
  · rw [logKeys_logInsert]
    by_cases hc : sid ∈ logKeys log
    · rw [if_pos hc]
      exact hnd
    · rw [if_neg hc, List.nodup_append]
      refine ⟨hnd, List.nodup_singleton _, ?_⟩
      intro a ha hb
      rw [List.mem_singleton] at hb
      exact hc (hb ▸ ha)

/-- Witness for C10: the unchanged-key conjunct at concrete keys. -/
theorem log_insert_preserves_shape_witness :
    ("a" : String) ≠ "b" ∧
      logLookup (logInsert [] "b" "p") "a" = logLookup [] "a" :=
  ⟨by decide, (log_insert_preserves_shape [] "b" "p").2.2.1 "a" (by decide)⟩

lemma jsonStrings_map_str (l : List String) :
    jsonStrings (Json.arr (l.map Json.str)) = l := by
  induction l with
  | nil => rfl
  | cons s tl ih => simpa [jsonStrings, List.filterMap_cons] using ih

/-- C7: dumping the log to its JSON document and loading it back yields
the same log, so every `(sid, pid)` membership query answers the same
after the round trip. -/
theorem download_log_roundtrip (log : DownloadLog) :
    loadDownloadLog (some (dumpLog log)) = log
    ∧ ∀ s p, logMem (loadDownloadLog (some (dumpLog log))) s p = logMem log s p := by
  have h : loadDownloadLog (some (dumpLog log)) = log := by
    show loadLogJson (dumpLog log) = log
    show (log.map (fun kv => (kv.1, Json.arr (kv.2.map Json.str)))).map
        (fun kv => (kv.1, jsonStrings kv.2)) = log
    rw [List.map_map]
    have hfun : ((fun (kv : String × Json) => (kv.1, jsonStrings kv.2)) ∘
        (fun (kv : String × List String) =>
          (kv.1, Json.arr (List.map Json.str kv.2)))) = id := by
      funext kv
      simp [Function.comp, jsonStrings_map_str]
    rw [hfun, List.map_id]
  exact ⟨h, fun s p => by rw [h]⟩

/-- C8: with the dry-run flag set, a task immediately reaches `DONE`,
spawns no process, and adds nothing to the log. -/
theorem dry_run_done_without_side_effects (w : DownloadWorker) (rc : Int)
    (log : DownloadLog) :
    (w.runWithDryRun true rc log).worker.state = DownloadState.DONE
    ∧ (w.runWithDryRun true rc log).invocations = 0
    ∧ (w.runWithDryRun true rc log).log = log := by
  simp [DownloadWorker.runWithDryRun]

lemma buildSeriesTasks_empty_log (glob : GlobalConfig) (sd : SeriesData) :
    ∀ eps, buildSeriesTasks glob [] sd eps = eps.map (buildEpisodeItem glob sd) := by
  intro eps
  induction eps with
  | nil => rfl
  | cons ep rest ih =>
    have hm : logMem [] sd.sid ep.id = false := rfl
    simp [buildSeriesTasks, hm, ih]

/-- C9: a missing completion-log file loads as the empty log; every
membership query on it is false, so the builder skips nothing and the run
proceeds normally. -/
theorem missing_log_file_treated_as_empty :
    loadDownloadLog none = []
    ∧ (∀ s p, logMem (loadDownloadLog none) s p = false)
    ∧ (∀ glob sd, buildSeriesTasks glob (loadDownloadLog none) sd sd.episodes =
        sd.episodes.map (buildEpisodeItem glob sd)) :=
  ⟨rfl, fun _ _ => rfl, fun glob sd => buildSeriesTasks_empty_log glob sd sd.episodes⟩

/-! ## The queue builder skips exactly the logged episodes -/

lemma buildEpisodeItem_sid (glob : GlobalConfig) (sd : SeriesData)
    (ep : Episode) :
    (buildEpisodeItem glob sd ep).sid = sd.sid := by
  unfold DownloadConfiguration.sid buildEpisodeItem episodeNumberFields
  cases matchEpisodeOfCount ep.title.toList with
  | some nm => simp [List.lookup_cons]
  | none =>
    cases matchKafli ep.title.toList with
    | some n => simp [List.lookup_cons]
    | none => simp [List.lookup_cons]

lemma buildEpisodeItem_pid (glob : GlobalConfig) (sd : SeriesData)
    (ep : Episode) :
    (buildEpisodeItem glob sd ep).pid = ep.id := by
  unfold DownloadConfiguration.pid buildEpisodeItem episodeNumberFields
  cases matchEpisodeOfCount ep.title.toList with
  | some nm => simp [List.lookup_cons]
  | none =>
    cases matchKafli ep.title.toList with
    | some n => simp [List.lookup_cons]
    | none => simp [List.lookup_cons]

lemma buildSeriesTasks_not_logged (glob : GlobalConfig) (log : DownloadLog)
    (sd : SeriesData) :
    ∀ eps cfg, cfg ∈ buildSeriesTasks glob log sd eps →
      logMem log cfg.sid cfg.pid = false := by
  intro eps
  induction eps with
  | nil =>
    intro cfg h
    simp [buildSeriesTasks] at h
  | cons ep rest ih =>
    intro cfg h
    simp only [buildSeriesTasks] at h
    cases hm : logMem log sd.sid ep.id with
    | true =>
      rw [hm] at h
      simp at h
      exact ih cfg h
    | false =>
      rw [hm] at h
      simp at h
      rcases h with h | h
      · subst h
        rw [buildEpisodeItem_sid, buildEpisodeItem_pid]
        exact hm
      · exact ih cfg h

lemma buildSeriesTasks_mem_of_not_logged (glob : GlobalConfig)
    (log : DownloadLog) (sd : SeriesData) :
    ∀ eps ep, ep ∈ eps → logMem log sd.sid ep.id = false →
      buildEpisodeItem glob sd ep ∈ buildSeriesTasks glob log sd eps := by
  intro eps
  induction eps with
  | nil =>
    intro ep h _
    simp at h
  | cons e rest ih =>
    intro ep hmem hm
    simp only [buildSeriesTasks]
    rcases List.mem_cons.1 hmem with he | he
    · subst he
      rw [hm]
      simp
    · cases hme : logMem log sd.sid e.id with
      | true =>
        simp only [if_pos rfl]
        exact ih ep he hm
      | false =>
        simp
        exact Or.inr (ih ep he hm)

lemma buildQueue_not_logged (glob : GlobalConfig) (log : DownloadLog) :
    ∀ series cfg, cfg ∈ buildQueue glob log series →
      logMem log cfg.sid cfg.pid = false := by
  intro series
  induction series with
  | nil =>
    intro cfg h
    simp [buildQueue] at h
  | cons sd rest ih =>
    intro cfg h
    simp only [buildQueue] at h
    rcases List.mem_append.1 h with h | h
    · exact buildSeriesTasks_not_logged glob log sd sd.episodes cfg h
    · exact ih cfg h

lemma buildQueue_mem_of_not_logged (glob : GlobalConfig) (log : DownloadLog) :
    ∀ series sd, sd ∈ series → ∀ ep, ep ∈ sd.episodes →
      logMem log sd.sid ep.id = false →
      buildEpisodeItem glob sd ep ∈ buildQueue glob log series := by
  intro series
  induction series with
  | nil =>
    intro sd h
    simp at h
  | cons sd0 rest ih =>
    intro sd hsd ep hep hm
    simp only [buildQueue]
    rcases List.mem_cons.1 hsd with he | he
    · subst he
      exact List.mem_append.2
        (Or.inl (buildSeriesTasks_mem_of_not_logged glob log sd sd.episodes ep hep hm))
    · exact List.mem_append.2 (Or.inr (ih sd he ep hep hm))

/-- C4: walking series and episodes in fetch order, the builder produces
no task whose `(sid, pid)` is already in the loaded log (every produced
task's key is unlogged, and for a logged episode no task with its key
appears), and appends a task for every episode whose key is not in the
log. -/
theorem queue_builder_skip_iff_logged (glob : GlobalConfig)
    (log : DownloadLog) (series : List SeriesData) :
    (∀ cfg ∈ buildQueue glob log series, logMem log cfg.sid cfg.pid = false)
    ∧ (∀ sd ∈ series, ∀ ep ∈ sd.episodes, logMem log sd.sid ep.id = false →
        buildEpisodeItem glob sd ep ∈ buildQueue glob log series)
    ∧ (∀ sd ∈ series, ∀ ep ∈ sd.episodes, logMem log sd.sid ep.id = true →
        ∀ cfg ∈ buildQueue glob log series,
          ¬(cfg.sid = sd.sid ∧ cfg.pid = ep.id)) := by
  refine ⟨fun cfg h => buildQueue_not_logged glob log series cfg h,
    fun sd hsd ep hep hm =>
      buildQueue_mem_of_not_logged glob log series sd hsd ep hep hm,
    fun sd hsd ep hep hm cfg hcfg hkey => ?_⟩
  have hfalse := buildQueue_not_logged glob log series cfg hcfg
  rw [hkey.1, hkey.2, hm] at hfalse
  exact Bool.noConfusion hfalse

/-- Witness for C4: in the sample run, episode `p1` is logged and `p2` is
not, and the builder's queue contains `p2`'s task. -/
theorem queue_builder_skip_iff_logged_witness :
    sampleSeries ∈ [sampleSeries] ∧ sampleEpisode2 ∈ sampleSeries.episodes ∧
      logMem sampleLog sampleSeries.sid sampleEpisode2.id = false ∧
      logMem sampleLog sampleSeries.sid sampleEpisode1.id = true ∧
      buildEpisodeItem sampleGlobal sampleSeries sampleEpisode2 ∈
        buildQueue sampleGlobal sampleLog [sampleSeries] :=
  ⟨by decide, by decide, by decide, by decide,
    (queue_builder_skip_iff_logged sampleGlobal sampleLog [sampleSeries]).2.1
      sampleSeries (by decide) sampleEpisode2 (by decide) (by decide)⟩

/-! ## Construction-time configuration errors -/

lemma mem_startFirstWaiting :
    ∀ (n : Nat) (ws : List DownloadWorker) (w : DownloadWorker),
      w ∈ startFirstWaiting n ws →
        w ∈ ws ∨ ∃ w₀ ∈ ws, w₀.state = DownloadState.WAITING ∧
          w = { w₀ with state := DownloadState.DOWNLOADING } := by
  intro n ws
  induction ws generalizing n with
  | nil =>
    intro w h
    simp [startFirstWaiting] at h
  | cons w0 tl ih =>
    intro w h
    cases n with
    | zero =>
      simp only [startFirstWaiting] at h
      exact Or.inl h
    | succ n =>
      simp only [startFirstWaiting] at h
      by_cases hw : w0.state = DownloadState.WAITING
      · rw [if_pos (by simp [hw])] at h
        rcases List.mem_cons.1 h with he | he
        · exact Or.inr ⟨w0, List.mem_cons_self _ _, hw, he⟩
        · rcases ih n w he with h1 | ⟨w₀, hw₀, hst, heq⟩
          · exact Or.inl (List.mem_cons_of_mem _ h1)
          · exact Or.inr ⟨w₀, List.mem_cons_of_mem _ hw₀, hst, heq⟩
      · rw [if_neg (by simp [hw])] at h
        rcases List.mem_cons.1 h with he | he
        · exact Or.inl (by simp [he])
        · rcases ih (n + 1) w he with h1 | ⟨w₀, hw₀, hst, heq⟩
          · exact Or.inl (List.mem_cons_of_mem _ h1)
          · exact Or.inr ⟨w₀, List.mem_cons_of_mem _ hw₀, hst, heq⟩

lemma reachable_none_args_error (tc : Nat) (log0 : DownloadLog)
    (queue : List DownloadConfiguration) (s : SchedState)
    (hreach : Reachable tc (initState log0 queue) s) :
    ∀ w ∈ s.workers, w.process_args = none →
      w.state = DownloadState.ERROR := by
  induction hreach with
  | refl =>
    intro w hw hargs
    simp only [initState, List.mem_map] at hw
    obtain ⟨cfg, _, rfl⟩ := hw
    unfold DownloadWorker.init at hargs ⊢
    cases hf : formatTemplate cfg.filenames cfg.fields <;> simp_all
  | tail _ hstep ih =>
    intro w hw hargs
    cases hstep with
    | admission =>
      rcases mem_startFirstWaiting _ _ w hw with h1 | ⟨w₀, hw₀, hst, rfl⟩
      · exact ih w h1 hargs
      · have herr := ih w₀ hw₀ (by simpa using hargs)
        rw [hst] at herr
        exact DownloadState.noConfusion herr
    | complete i rc h hdl =>
      rcases List.mem_or_eq_of_mem_set hw with h1 | heq
      · exact ih w h1 hargs
      · subst heq
        unfold DownloadWorker.finish at hargs ⊢
        by_cases hrc : rc = 0
        · exfalso
          simp [hrc] at hargs
          have herr := ih _ (List.get_mem _ i h) hargs
          rw [hdl] at herr
          exact DownloadState.noConfusion herr
        · simp [hrc]

/-- C5: a task whose output-filename template references a field absent
from its configuration dict is `ERROR` at construction (before
`process_args` is assigned), its `run` returns at once with zero process
invocations and an unchanged log, and in every reachable scheduler state
a worker without `process_args` is still `ERROR` — it never enters
`DOWNLOADING` and never holds a slot. -/
theorem config_error_task_never_runs (cfg : DownloadConfiguration)
    (e : String)
    (herr : formatTemplate cfg.filenames cfg.fields = Except.error e) :
    (DownloadWorker.init cfg).state = DownloadState.ERROR
    ∧ (DownloadWorker.init cfg).process_args = none
    ∧ (∀ rc log, (DownloadWorker.init cfg).run rc log =
        { worker := DownloadWorker.init cfg, log := log, invocations := 0 })
    ∧ (∀ tc log0 queue s, Reachable tc (initState log0 queue) s →
        ∀ w ∈ s.workers, w.process_args = none →
          w.state = DownloadState.ERROR) := by
  have h1 : (DownloadWorker.init cfg).state = DownloadState.ERROR := by
    unfold DownloadWorker.init
    rw [herr]
  have h2 : (DownloadWorker.init cfg).process_args = none := by
    unfold DownloadWorker.init
    rw [herr]
  refine ⟨h1, h2, ?_,
    fun tc log0 queue s hreach =>
      reachable_none_args_error tc log0 queue s hreach⟩
  intro rc log
  unfold DownloadWorker.run
  rw [if_pos (by rw [h1]; exact fun hh => DownloadState.noConfusion hh)]

/-- Witness for C5: the hypothesis holds at the sample mis-templated
configuration (its template references `episode_number`, which the dict
lacks), and that worker is `ERROR` at construction. -/
theorem config_error_task_never_runs_witness :
    formatTemplate sampleBadConfiguration.filenames
        sampleBadConfiguration.fields = Except.error "episode_number" ∧
      (DownloadWorker.init sampleBadConfiguration).state =
        DownloadState.ERROR :=
  ⟨rfl,
   (config_error_task_never_runs sampleBadConfiguration "episode_number" rfl).1⟩

/-! ## The unsynchronized success-path insertion races -/

lemma raceExec_single (t2 : RaceThread) (sid pid : String)
    (log : DownloadLog) :
    (raceExec [true, true, true] { sid := sid, pid := pid, pc := 0 } t2
        log).2.2 = logInsert log sid pid := by
  cases hc : (logKeys log).contains sid with
  | true =>
    have hm : sid ∈ logKeys log := (contains_iff_mem _ _).1 hc
    simp [raceExec, raceStep, hc, hm, logInsert]
  | false =>
    have hm : sid ∉ logKeys log := (contains_eq_false_iff _ _).1 hc
    simp [raceExec, raceStep, hc, hm, logInsert]

/-- C6 counterexample: the claim — that concurrent success completions
are serialized and never race — fails at a concrete input.  Two workers
of the same series, both succeeding, interleave their unsynchronized
key-test / dict-assignment / append micro-steps (schedule: thread 1
tests, thread 2 tests, thread 1 initializes and appends, thread 2
initializes and appends); both complete, yet the final log lost thread
1's entry and matches neither sequential order of the two insertions. -/
theorem log_insert_race_counterexample :
    ((raceExec [true, false, true, true, false, false]
        { sid := "s", pid := "p1", pc := 0 }
        { sid := "s", pid := "p2", pc := 0 } []).1.pc = 3
      ∧ (raceExec [true, false, true, true, false, false]
        { sid := "s", pid := "p1", pc := 0 }
        { sid := "s", pid := "p2", pc := 0 } []).2.1.pc = 3)
    ∧ (raceExec [true, false, true, true, false, false]
        { sid := "s", pid := "p1", pc := 0 }
        { sid := "s", pid := "p2", pc := 0 } []).2.2 = [("s", ["p2"])]
    ∧ logMem (raceExec [true, false, true, true, false, false]
        { sid := "s", pid := "p1", pc := 0 }
        { sid := "s", pid := "p2", pc := 0 } []).2.2 "s" "p1" = false
    ∧ logInsert (logInsert [] "s" "p1") "s" "p2" = [("s", ["p1", "p2"])]
    ∧ logInsert (logInsert [] "s" "p2") "s" "p1" = [("s", ["p2", "p1"])]
    ∧ logMem (logInsert (logInsert [] "s" "p1") "s" "p2") "s" "p1" = true
    ∧ logMem (logInsert (logInsert [] "s" "p2") "s" "p1") "s" "p1" = true := by
  decide

/-- C6 (amended): the success-path insertion into the shared log is not
routed through any serialization mechanism — the worker thread performs
the key test, the `download_log[sid] = []` assignment and the `append` as
separate steps on shared state — and there exists an interleaving of two
concurrent same-series success completions in which both threads finish
but one entry is lost: the final log differs from both sequential orders
of the two insertions. -/
theorem log_insert_unsynchronized_race :
    ∃ (sched : List Bool) (t1 t2 : RaceThread) (log : DownloadLog),
      t1.pc = 0 ∧ t2.pc = 0 ∧ t1.sid = t2.sid ∧
      (raceExec sched t1 t2 log).1.pc = 3 ∧
      (raceExec sched t1 t2 log).2.1.pc = 3 ∧
      (raceExec sched t1 t2 log).2.2 ≠
        logInsert (logInsert log t1.sid t1.pid) t2.sid t2.pid ∧
      (raceExec sched t1 t2 log).2.2 ≠
        logInsert (logInsert log t2.sid t2.pid) t1.sid t1.pid ∧
      logMem (raceExec sched t1 t2 log).2.2 t1.sid t1.pid = false :=
  ⟨[true, false, true, true, false, false],
    { sid := "s", pid := "p1", pc := 0 },
    { sid := "s", pid := "p2", pc := 0 }, [], by decide⟩

end Jofsarpur
